import Mathlib

/-!
Verification of the `gocairo` binding generator (`gen.go`).

This file gives a shallow embedding of the generator: the naming engine
(`cNameToGo`), the type-mapping engine (`cTypeToMap`), the subtype emulator
(`shouldBeMethod`), the function-signature synthesizer (`genFunc`), the
typedef generator (`genTypeDef`) and the driver (`process`), together with
the static registries they consult.  Go maps are modelled as association
lists (only lookups are performed on them), the mutable `sharedTypes`
registry is threaded explicitly, Go panics are modelled by the `fatal`
outcome of `GenRes`, and `genFunc`'s boolean "could not generate" result by
the `skip` outcome.  Strings are modelled by Lean `String`, with byte
slicing rendered as `Char`-list operations (all identifiers involved are
ASCII).
-/

namespace Gocairo

/-! ## Go string primitives -/

/-- Translation of `strings.HasPrefix` (on char lists). -/
def pfxOf : List Char → List Char → Bool
  | [], _ => true
  | _ :: _, [] => false
  | a :: as, b :: bs => a == b && pfxOf as bs

/-- `strings.HasPrefix(s, p)` on `String`s. -/
def goHasPfx (p s : String) : Bool := pfxOf p.data s.data

/-- Translation of `strings.HasSuffix`. -/
def goHasSuffix (p s : String) : Bool := pfxOf p.data.reverse s.data.reverse

/-- Go slicing `s[n:]` (ASCII identifiers: byte index = char index). -/
def goDropStr (s : String) (n : Nat) : String := String.mk (s.data.drop n)

/-- Translation of `strings.Join(xs, sep)`. -/
def goJoin (sep : String) : List String → String
  | [] => ""
  | [x] => x
  | x :: xs => x ++ sep ++ goJoin sep xs

/-- Translation of `strings.Split(name, "_")` on char lists: split at every
underscore, keeping empty pieces (Go returns `[""]` on the empty string). -/
def splitUnderscore : List Char → List (List Char)
  | [] => [[]]
  | c :: cs =>
    if c = '_' then [] :: splitUnderscore cs
    else
      match splitUnderscore cs with
      | [] => [[c]]
      | p :: ps => (c :: p) :: ps

/-- Translation of `strings.ToUpper` (ASCII). -/
def toUpperL (l : List Char) : List Char := l.map Char.toUpper

/-- Translation of `strings.Title` restricted to the identifier charset
actually fed to it (alphanumeric tokens produced by `splitUnderscore`):
only the first character starts a word, so only it is title-cased. -/
def goTitle : List Char → List Char
  | [] => []
  | c :: cs => c.toUpper :: cs

/-- Association-list lookup, modelling a Go map read `m[k]`. -/
def lookupA {β : Type} (k : String) : List (String × β) → Option β
  | [] => none
  | (a, b) :: r => if a = k then some b else lookupA k r

/-! ## Static registries (`gen.go` lines 29-161) -/

/-- C names intentionally not bound, with the reason. -/
def intentionalSkip : List (String × String) :=
  [("cairo_bool_t", "mapped to bool"),
   ("cairo_user_data_key_t", "type only used as a placeholder in C"),
   ("cairo_matrix_init", "just the same thing as creating the struct yourself"),
   ("cairo_status_to_string", "mapped to the error interface, use .Error()"),
   ("cairo_surface_write_to_png", "specially implemented to work with io.Writer"),
   ("cairo_surface_write_to_png_stream", "specially implemented to work with io.Writer"),
   ("cairo_glyph_allocate", "manage memory on the Go side"),
   ("cairo_glyph_free", "manage memory on the Go side"),
   ("cairo_path_data_t", "used internally in path iteration"),
   ("Drawable", ""),
   ("Pixmap", ""),
   ("Display", ""),
   ("Visual", ""),
   ("Screen", "")]

/-- C names not wrapped yet, with the excuse. -/
def skipUnhandled : List (String × String) :=
  [("cairo_pattern_get_rgba", "mix of out params and status"),
   ("cairo_pattern_get_color_stop_rgba", "mix of out params and status"),
   ("cairo_pattern_get_color_stop_count", "mix of out params and status"),
   ("cairo_pattern_get_linear_points", "mix of out params and status"),
   ("cairo_pattern_get_radial_circles", "mix of out params and status"),
   ("cairo_mesh_pattern_get_patch_count", "mix of out params and status"),
   ("cairo_mesh_pattern_get_corner_color_rgba", "mix of out params and status"),
   ("cairo_mesh_pattern_get_control_point", "mix of out params and status"),
   ("cairo_scaled_font_text_to_glyphs", "fancy font APIs"),
   ("cairo_surface_get_mime_data", "mime functions"),
   ("cairo_surface_set_mime_data", "mime functions"),
   ("cairo_pattern_get_surface", "need to figure out refcounting")]

def typeTodoList : List (String × String) :=
  [("cairo_rectangle_int_t", "hard to wrap API"),
   ("cairo_rectangle_list_t", "hard to wrap API"),
   ("cairo_text_cluster_t", "needs work"),
   ("cairo_raster_source_acquire_func_t", "callbacks"),
   ("cairo_raster_source_snapshot_func_t", "callbacks"),
   ("cairo_raster_source_copy_func_t", "callbacks"),
   ("cairo_raster_source_finish_func_t", "callbacks")]

def manualImpl : List (String × String) := []

/-- Per-function output-only parameter flags. -/
def outParams : List (String × List Bool) :=
  [("cairo_clip_extents", [false, true, true, true, true]),
   ("cairo_fill_extents", [false, true, true, true, true]),
   ("cairo_path_extents", [false, true, true, true, true]),
   ("cairo_stroke_extents", [false, true, true, true, true]),
   ("cairo_recording_surface_ink_extents", [false, true, true, true, true]),
   ("cairo_get_current_point", [false, true, true]),
   ("cairo_surface_get_device_scale", [false, true, true]),
   ("cairo_surface_get_device_offset", [false, true, true]),
   ("cairo_surface_get_fallback_resolution", [false, true, true])]

def arrayParams : List (String × Nat) :=
  [("cairo_set_dash", 1),
   ("cairo_show_glyphs", 1),
   ("cairo_glyph_path", 1),
   ("cairo_glyph_extents", 1),
   ("cairo_scaled_font_glyph_extents", 1)]

/-- Initial contents of the mutable `sharedTypes` registry (structs are added
to the threaded copy as the headers are processed). -/
def sharedTypes : List (String × String) := [("double", "float64")]

/-- The `(sub, super)` subtype pairs, in configuration order. -/
def subTypes : List (String × String) :=
  [("ImageSurface", "Surface"),
   ("RecordingSurface", "Surface"),
   ("SurfaceObserver", "Surface"),
   ("ToyFontFace", "FontFace"),
   ("MeshPattern", "Pattern"),
   ("XlibSurface", "Surface"),
   ("XlibDevice", "Device")]

def rawCTypes : List String := ["Display", "Drawable", "Visual", "Pixmap", "Screen"]

def acronyms : List String :=
  ["argb", "argb32", "bgr", "cogl", "ctm", "drm", "png", "rgb", "rgb16",
   "rgb24", "rgb30", "rgba", "vbgr", "vrgb", "xcb", "xml", "xor"]

/-- `acronyms[p]` for a char-list token. -/
def acronymB (p : List Char) : Bool := acronyms.contains (String.mk p)

/-! ## Naming engine (`cNameToGo`, lines 181-223) -/

/-- One iteration of `cNameToGo`'s token loop: `out` is the accumulator,
`p` the current token. -/
def renderPart (upper : Bool) (out p : List Char) : List Char :=
  if p = "cairo".data ∨ p = "t".data then out
  else if upper || decide (out ≠ []) then
    if acronymB p then out ++ toUpperL p else out ++ goTitle p
  else out ++ p

def cNameToGo (name : String) (upper : Bool) : String :=
  if name = "int" then name
  else if name = "double" then "float64"
  else if name = "ulong" then "uint32"
  else if name = "uint" then "int"
  else if name = "cairo_t" then "Context"
  else String.mk ((splitUnderscore name.data).foldl (renderPart upper) [])

def cNameToGoUpper (name : String) : String := cNameToGo name true

def cNameToGoLower (name : String) : String := cNameToGo name false

/-! ## Data model (the external parser's `cc.Decl` / `cc.Type`)

A member / parameter / enumerator declaration only ever has its `Name` and
`Type` consulted by the generator, so nested declarations are modelled as
`String × CType` pairs (enumerators as bare `String`s).  `structT none`
models a `nil` member list (opaque struct), `structT (some ms)` a present
one. -/

inductive CType where
  | void
  | basic (name : String)
  | ptr (base : CType)
  | structT (decls : Option (List (String × CType)))
  | enum (decls : List String)
  | func (ret : CType) (params : List (String × CType))

/-- `typ.Kind == cc.Void` (the generator only ever compares kinds, never
whole types). -/
def CType.isVoid : CType → Bool
  | .void => true
  | _ => false

/-- Stand-in for `cc.Type.String()`; exact on the named / basic types, which
are the only shapes whose printed form the generator's lookups and emitted
text depend on. -/
def CType.str : CType → String
  | .void => "void"
  | .basic n => n
  | .ptr b => b.str ++ "*"
  | .structT _ => "struct"
  | .enum _ => "enum"
  | .func _ _ => "func"

inductive Storage where
  | ordinary
  | typedef
deriving DecidableEq

structure CDecl where
  name : String
  storage : Storage
  type : CType

/-! ## Type mapping engine (`typeMap`, `cTypeToMap`, lines 225-355) -/

/-- `typeMap`: Go-side nil function fields are `none`. -/
structure typeMap where
  goType : String := ""
  cToGo : Option (String → String) := none
  goToC : Option (String → String × String) := none
  method : String := ""

/-- Apply a conversion function field.  Go would nil-dereference when the
field is nil; every reachable call site has it set, so the `none` arm is
never exercised. -/
def applyConv (c : Option (String → String)) (x : String) : String :=
  match c with
  | some f => f x
  | none => ""

/-- Translation of `cTypeToMap`, with the mutable `sharedTypes` registry
passed in explicitly. -/
def cTypeToMap (shared : List (String × String)) : CType → Option typeMap
  | .ptr base =>
    let str := base.str
    if str = "char" then
      some { goType := "string",
             cToGo := some (fun s => "C.GoString(" ++ s ++ ")"),
             goToC := some (fun s =>
               ("c_" ++ s,
                "c_" ++ s ++ " := C.CString(" ++ s ++ "); defer C.free(unsafe.Pointer(c_" ++ s ++ "))")) }
    else if str = "uchar" ∨ str = "void" then none
    else
      match lookupA str shared with
      | some goType =>
        some { goType := "*" ++ goType,
               cToGo := some (fun s => "(*" ++ goType ++ ")(unsafe.Pointer(" ++ s ++ "))"),
               goToC := some (fun s => ("(*C." ++ str ++ ")(unsafe.Pointer(" ++ s ++ "))", "")),
               method := goType }
      | none =>
        if rawCTypes.contains str then
          some { goType := "unsafe.Pointer",
                 cToGo := some (fun s => "unsafe.Pointer(" ++ s ++ ")"),
                 goToC := some (fun s => ("(*C." ++ str ++ ")(" ++ s ++ ")", "")) }
        else
          let goName := cNameToGoUpper str
          if (lookupA str typeTodoList).isSome then none
          else
            some { goType := "*" ++ goName,
                   cToGo := some (fun s => "wrap" ++ goName ++ "(" ++ s ++ ")"),
                   goToC := some (fun s => (s ++ ".Ptr", "")),
                   method := goName }
  | .void => some {}
  | t =>
    let cName := t.str
    if (lookupA cName typeTodoList).isSome then none
    else if cName = "cairo_bool_t" then
      some { goType := "bool",
             cToGo := some (fun s => s ++ " != 0"),
             goToC := some (fun s => ("C." ++ cName ++ "(" ++ s ++ ")", "")) }
    else if cName = "cairo_status_t" then
      some { goType := "error",
             cToGo := some (fun s => "Status(" ++ s ++ ").toError()") }
    else if cName = "Drawable" ∨ cName = "Pixmap" then
      some { goType := "uint64",
             cToGo := some (fun s => "uint64(" ++ s ++ ")"),
             goToC := some (fun s => ("C." ++ cName ++ "(" ++ s ++ ")", "")) }
    else
      let goName := cNameToGoUpper cName
      some { goType := goName,
             cToGo := some (fun s => goName ++ "(" ++ s ++ ")"),
             goToC := some (fun s => ("C." ++ cName ++ "(" ++ s ++ ")", "")),
             method := if goName = "Format" then goName else "" }

/-! ## Subtype emulator (`shouldBeMethod`, lines 398-411) -/

/-- The `for _, t := range subTypes` scan inside `shouldBeMethod`: first
configured pair whose `sub` prefixes `goName` and whose `super` equals
`goType` wins. -/
def subMatch (goName goType : String) : List (String × String) → Option (String × String)
  | [] => none
  | (sub, super) :: rest =>
    if goHasPfx sub goName ∧ goType = super then
      some (goDropStr goName sub.length, "*" ++ sub)
    else subMatch goName goType rest

def shouldBeMethod (goName goType : String) : String × String :=
  if goType = "Context" then (goName, "")
  else
    match subMatch goName goType subTypes with
    | some r => r
    | none =>
      if goType ≠ "" ∧ goHasPfx goType goName then
        (goDropStr goName goType.length, "")
      else ("", "")

/-! ## Generation outcomes

`ok` is normal generation, `skip` is `genFunc` returning `false` (the
declaration is dropped and counted), `fatal` is a Go `panic` aborting the
whole run. -/

inductive GenRes (α : Type) where
  | ok (val : α)
  | skip
  | fatal (msg : String)

def GenRes.toOption {α : Type} : GenRes α → Option α
  | .ok v => some v
  | _ => none

/-! ## Typedef generation (`genTypeDef`, lines 357-396) -/

/-- The member loop of the non-opaque struct case.  Go reads `typ.goType`
without a nil check, so an unmapped member type is a nil-pointer panic. -/
def structFields (shared : List (String × String)) :
    List (String × CType) → GenRes (List String)
  | [] => .ok []
  | (n, t) :: rest =>
    match cTypeToMap shared t with
    | none => .fatal "runtime error: invalid memory address or nil pointer dereference"
    | some m =>
      match structFields shared rest with
      | .ok ls => .ok ((cNameToGoUpper n ++ " " ++ m.goType) :: ls)
      | .skip => .skip
      | .fatal msg => .fatal msg

/-- Translation of `genTypeDef`: returns the emitted lines (one entry per
`w.Print` call, embedded newlines preserved) and the updated `sharedTypes`
registry.  The enum arm renders only the final value of `constName` (the
`CAIRO_`-prefix strip in the source is immediately overwritten and dead). -/
def genTypeDef (shared : List (String × String)) (d : CDecl) :
    GenRes (List String × List (String × String)) :=
  let header := "// See " ++ d.name ++ "."
  let goName := cNameToGoUpper d.name
  match d.type with
  | .structT decls? =>
    match decls? with
    | none =>
      .ok ([header,
            "type " ++ goName ++ " struct \x7b\nPtr *C." ++ d.name ++ "\n\x7d",
            "func wrap" ++ goName ++ "(p *C." ++ d.name ++ ") *" ++ goName ++ " \x7b",
            "// TODO: finalizer",
            "return &" ++ goName ++ "\x7bp\x7d",
            "\x7d"], shared)
    | some ms =>
      if goName = "Path" then
        .ok ([header,
              "type " ++ goName ++ " struct \x7b\nPtr *C." ++ d.name ++ "\n\x7d",
              "func wrap" ++ goName ++ "(p *C." ++ d.name ++ ") *" ++ goName ++ " \x7b",
              "// TODO: finalizer",
              "return &" ++ goName ++ "\x7bp\x7d",
              "\x7d"], shared)
      else
        let shared1 := (d.name, goName) :: shared
        match structFields shared1 ms with
        | .ok fieldLines =>
          .ok ([header, "type " ++ goName ++ " struct \x7b"] ++ fieldLines ++ ["\x7d"],
               shared1)
        | .skip => .skip
        | .fatal msg => .fatal msg
  | .enum es =>
    .ok ([header, "type " ++ goName ++ " int", "const ("]
         ++ es.map (fun e => cNameToGoUpper (String.toLower e) ++ " " ++ goName ++ " = C." ++ e)
         ++ [")"], shared)
  | _ => .fatal ("unhandled decl " ++ d.name)

/-! ## Function synthesis (`genFunc`, lines 413-578) -/

/-- The mutable locals of `genFunc`'s parameter loop. -/
structure LoopState where
  name : String
  inArgs : List String := []
  inArgTypes : List String := []
  callArgs : List String := []
  getErrorCall : String := ""
  methodSig : String := ""
  preCall : String := ""
  retTypeSigs : List String
  retVals : List String := []
deriving DecidableEq

/-- The continuation selected by one iteration of the parameter loop:
advance to the next parameter, advance past the following length parameter
as well (the array branch's inner `i++`), skip the whole function
(`return false`), or panic. -/
inductive ParamAct where
  | next (st : LoopState)
  | skipNext (st : LoopState)
  | skipFn
  | fatalAct (msg : String)

/-- One iteration of `genFunc`'s parameter loop (the body of the
`for i := 0; i < len(f.Type.Decls); i++` loop).  The trailing `goToC`
conversion of the body is inlined into each branch that reaches it
(method / out-parameter / plain input); the array branch `continue`s past
it. -/
def paramStep (shared : List (String × String)) (outs : Option (List Bool))
    (arrayP : Option Nat) (i : Nat) (dn : String) (dt : CType) (st : LoopState) : ParamAct :=
  if i = 0 ∧ dt.isVoid then
    -- a function that accepts (void)
    .next st
  else
    let outParam := match outs with
      | some flags => flags.getD i false
      | none => false
    let argName := cNameToGoLower dn
    match cTypeToMap shared dt with
    | none => .skipFn
    | some argType0 =>
      let sm := shouldBeMethod st.name argType0.method
      if i = 0 ∧ sm.1 ≠ "" then
        let name1 := if sm.1 = "Status" then "status" else sm.1
        let methType := if sm.2 = "" then argType0.goType else sm.2
        let gec :=
          if name1 ≠ "status" ∧ methType ≠ "Format" ∧ methType ≠ "*Matrix" then
            argName ++ ".status()"
          else st.getErrorCall
        match argType0.goToC with
        | none => .fatalAct ("in " ++ name1 ++ " need goToC for " ++ argName)
        | some conv =>
          let tc := conv argName
          .next { st with name := name1,
                          methodSig := "(" ++ argName ++ " " ++ methType ++ ")",
                          getErrorCall := gec,
                          callArgs := st.callArgs ++ [tc.1],
                          preCall := st.preCall ++ tc.2 }
      else if outParam then
        match dt with
        | .ptr b =>
          match cTypeToMap shared b with
          | none => .fatalAct "runtime error: invalid memory address or nil pointer dereference"
          | some baseType =>
            -- the overwritten argType; its goToC is `&in` with no extra setup
            .next { st with
                    preCall := st.preCall ++ "var " ++ argName ++ " C." ++ b.str ++ "\n",
                    retTypeSigs := st.retTypeSigs ++ [baseType.goType],
                    retVals := st.retVals ++ [baseType.goType ++ "(" ++ cNameToGoLower dn ++ ")"],
                    callArgs := st.callArgs ++ ["&" ++ argName] }
        | _ => .fatalAct "non-ptr outparam"
      else if arrayP = some i then
        match dt with
        | .ptr b =>
          match cTypeToMap shared b with
          | none => .fatalAct "runtime error: invalid memory address or nil pointer dereference"
          | some baseType =>
            .skipNext
              { st with
                inArgs := st.inArgs ++ [argName],
                inArgTypes := st.inArgTypes ++ ["[]" ++ baseType.goType],
                callArgs := st.callArgs ++
                  ["(*C." ++ b.str ++ ")(sliceBytes(unsafe.Pointer(&" ++ argName ++ ")))",
                   "C.int(len(" ++ argName ++ "))"] }
        | _ => .fatalAct "runtime error: invalid memory address or nil pointer dereference"
      else
        match argType0.goToC with
        | none => .fatalAct ("in " ++ st.name ++ " need goToC for " ++ argName)
        | some conv =>
          let tc := conv argName
          .next { st with
                  inArgs := st.inArgs ++ [argName],
                  inArgTypes := st.inArgTypes ++ [argType0.goType],
                  callArgs := st.callArgs ++ [tc.1],
                  preCall := st.preCall ++ tc.2 }

/-- The parameter loop itself, driving `paramStep` over the parameter
list. -/
def paramLoop (shared : List (String × String)) (outs : Option (List Bool))
    (arrayP : Option Nat) : Nat → List (String × CType) → LoopState → GenRes LoopState
  | _, [], st => .ok st
  | i, (dn, dt) :: rest, st =>
    match paramStep shared outs arrayP i dn dt st with
    | .next st1 => paramLoop shared outs arrayP (i + 1) rest st1
    | .skipNext st1 =>
      match rest with
      | [] => .ok st1
      | _ :: rest2 => paramLoop shared outs arrayP (i + 2) rest2 st1
    | .skipFn => .skip
    | .fatalAct msg => .fatal msg

/-- The `argSig` loop (lines 533-542): a parameter's type is printed when it
is the last one or its type differs from the next parameter's type.  The Go
loop indexes `inArgTypes[i]` / `inArgTypes[i+1]`; both lists are always
appended to in lockstep, so the parallel recursion below renders it (the
final catch-all is Go's out-of-range panic territory, never reached). -/
def buildArgSig : List String → List String → String
  | [], _ => ""
  | [a], t :: _ => a ++ " " ++ t
  | a :: as, t :: t2 :: ts =>
    (if t ≠ t2 then a ++ " " ++ t else a) ++ ", " ++ buildArgSig as (t2 :: ts)
  | _ :: _, _ => ""

/-- The adjustment of the return conversion when the function looks like a
subtype constructor (lines 429-443). -/
def retSubMatch (goTypeStr name : String) : Option (String × String) :=
  subTypes.find? (fun t =>
    goTypeStr == "*" ++ t.2 &&
      (goHasPfx t.1 name || (name == "SurfaceCreateObserver" && t.1 == "SurfaceObserver")))

/-- Everything `genFunc` emits and the intermediate values the emission is
assembled from (lines 544-577). -/
structure GenFun where
  fname : String
  name : String
  methodSig : String
  argSig : String
  retTypeSig : String
  inArgs : List String
  inArgTypes : List String
  retTypeSigs : List String
  retVals : List String
  callArgs : List String
  getErrorCall : String
  preCall : String
  lines : List String
deriving DecidableEq

/-- Assembly of the emitted function text from the final loop state. -/
def mkGenFun (fname : String) (retType? : Option typeMap) (st : LoopState) : GenFun :=
  let argSig := buildArgSig st.inArgs st.inArgTypes
  let retTypeSig0 := goJoin ", " st.retTypeSigs
  let retTypeSig := if st.retTypeSigs.length > 1 then "(" ++ retTypeSig0 ++ ")" else retTypeSig0
  let call := "C." ++ fname ++ "(" ++ goJoin ", " st.callArgs ++ ")"
  let retLine := match retType? with
    | some rt => "ret := " ++ applyConv rt.cToGo call
    | none => call
  let gec := match retType? with
    | some rt => if st.getErrorCall = "" ∧ rt.method ≠ "" then "ret.status()" else st.getErrorCall
    | none => st.getErrorCall
  let lines :=
    ["// See " ++ fname ++ "().",
     "func " ++ st.methodSig ++ " " ++ st.name ++ "(" ++ argSig ++ ") " ++ retTypeSig ++ " \x7b"]
    ++ (if st.preCall ≠ "" then [st.preCall] else [])
    ++ [retLine]
    ++ (if gec ≠ "" then ["if err := " ++ gec ++ "; err != nil \x7b panic(err) \x7d"] else [])
    ++ (if st.retTypeSigs ≠ [] then
          [if st.retVals ≠ [] then "return " ++ goJoin ", " st.retVals else "return ret"]
        else [])
    ++ ["\x7d"]
  { fname, name := st.name, methodSig := st.methodSig, argSig, retTypeSig,
    inArgs := st.inArgs, inArgTypes := st.inArgTypes, retTypeSigs := st.retTypeSigs,
    retVals := st.retVals, callArgs := st.callArgs, getErrorCall := gec,
    preCall := st.preCall, lines }

/-- The part of `genFunc` after the `outParams` validation. -/
def genFuncBody (shared : List (String × String)) (fname name : String)
    (retType? : Option typeMap) (retTypeSigs : List String)
    (outs : Option (List Bool)) (params : List (String × CType)) : GenRes GenFun :=
  match paramLoop shared outs (lookupA fname arrayParams) 0 params
        { name := name, retTypeSigs := retTypeSigs } with
  | .ok st => .ok (mkGenFun fname retType? st)
  | .skip => .skip
  | .fatal msg => .fatal msg

/-- Lines 420-445 of `genFunc`: the effective return conversion (`nil` for
a void return) paired with the initial `retTypeSigs`, after the
subtype-constructor adjustment. -/
def retPair (name : String) (retBase : CType) (retType0 : typeMap) :
    Option typeMap × List String :=
  if retBase.isVoid then (none, [])
  else
    match retSubMatch retType0.goType name with
    | some t =>
      (some { cToGo := some (fun s =>
                "&" ++ t.1 ++ "\x7b" ++ applyConv retType0.cToGo s ++ "\x7d"),
              method := retType0.method },
       ["*" ++ t.1])
    | none => (some retType0, [retType0.goType])

/-- Translation of `genFunc`.  `skip` is `return false`. -/
def genFunc (shared : List (String × String)) (f : CDecl) : GenRes GenFun :=
  match f.type with
  | .func retBase params =>
    let name := cNameToGoUpper f.name
    match cTypeToMap shared retBase with
    | none => .skip
    | some retType0 =>
      let rp := retPair name retBase retType0
      match lookupA f.name outParams with
      | some outs =>
        if outs.length ≠ params.length then .fatal ("outParams mismatch for " ++ f.name)
        else if rp.2 ≠ [] then .fatal (f.name ++ ": outParams and return type")
        else genFuncBody shared f.name name rp.1 rp.2 (some outs) params
      | none => genFuncBody shared f.name name rp.1 rp.2 none params
  | _ => .skip

/-! ## Driver (`process`, lines 580-733) -/

/-- The name-keyed policy tables the per-declaration dispatch consults.
`process` always runs with `staticTables`; the dispatch itself is
parameterised over them so that statements about its evaluation order can
be expressed. -/
structure SkipTables where
  intentionalSkipT : List (String × String)
  typeTodoT : List (String × String)
  skipUnhandledT : List (String × String)
  manualImplT : List (String × String)

def staticTables : SkipTables :=
  { intentionalSkipT := intentionalSkip,
    typeTodoT := typeTodoList,
    skipUnhandledT := skipUnhandled,
    manualImplT := manualImpl }

/-- The driver's mutable state: the threaded `sharedTypes` registry, the two
skip counters, and the output buffer (one entry per `w.Print`). -/
structure ProcState where
  shared : List (String × String)
  intentional : Nat := 0
  todo : Nat := 0
  lines : List String := []
deriving DecidableEq

/-- One iteration of the declaration loop of `process` (lines 669-731),
exactly in the source's evaluation order: name exclusions, then suffix
exclusions, then anonymous declarations, and only then the
manual-override / typedef / function dispatch.  Declarations reaching the
dispatch get the trailing blank `w.Print("")`. -/
def processOne (tabs : SkipTables) (st : ProcState) (d : CDecl) : GenRes ProcState :=
  match lookupA d.name tabs.intentionalSkipT with
  | some _ => .ok { st with intentional := st.intentional + 1 }
  | none =>
  match lookupA d.name tabs.typeTodoT with
  | some _ => .ok { st with todo := st.todo + 1 }
  | none =>
  match lookupA d.name tabs.skipUnhandledT with
  | some _ => .ok { st with todo := st.todo + 1 }
  | none =>
  if goHasSuffix "_func" d.name ∨ goHasSuffix "_func_t" d.name ∨
     goHasSuffix "_callback" d.name ∨ goHasSuffix "_callback_data" d.name ∨
     goHasSuffix "_callback_t" d.name then
    .ok { st with todo := st.todo + 1 }
  else if goHasSuffix "_user_data" d.name then
    .ok { st with intentional := st.intentional + 1 }
  else if goHasSuffix "_reference" d.name ∨ goHasSuffix "_destroy" d.name ∨
          goHasSuffix "_get_reference_count" d.name then
    .ok { st with intentional := st.intentional + 1 }
  else if d.name = "" then
    .ok { st with intentional := st.intentional + 1 }
  else
    let res : GenRes ProcState :=
      match lookupA d.name tabs.manualImplT with
      | some impl =>
        .ok { st with lines := st.lines ++ ["// See " ++ d.name ++ "().", impl] }
      | none =>
        if d.storage = Storage.typedef then
          match genTypeDef st.shared d with
          | .ok (ls, shared1) => .ok { st with shared := shared1, lines := st.lines ++ ls }
          | .skip => .skip
          | .fatal msg => .fatal msg
        else
          match d.type with
          | .func _ _ =>
            match genFunc st.shared d with
            | .ok g => .ok { st with lines := st.lines ++ g.lines }
            | .skip => .ok { st with intentional := st.intentional + 1 }
            | .fatal msg => .fatal msg
          | _ => .ok st  -- "unhandled decl": logged only, nothing emitted or counted
    match res with
    | .ok st1 => .ok { st1 with lines := st1.lines ++ [""] }
    | .skip => .skip
    | .fatal msg => .fatal msg

def processDecls (tabs : SkipTables) : List CDecl → ProcState → GenRes ProcState
  | [], st => .ok st
  | d :: rest, st =>
    match processOne tabs st d with
    | .ok st1 => processDecls tabs rest st1
    | .skip => .skip
    | .fatal msg => .fatal msg

/-- The fixed text printed by `process` before the declaration loop
(the raw string of lines 581-660, without the trailing newline that
`w.Print` appends). -/
def preludeText : String :=
  "// Copyright 2015 Google Inc. All Rights Reserved.\n" ++
  "//\n" ++
  "// Licensed under the Apache License, Version 2.0 (the \"License\");\n" ++
  "// you may not use this file except in compliance with the License.\n" ++
  "// You may obtain a copy of the License at\n" ++
  "//\n" ++
  "//     http://www.apache.org/licenses/LICENSE-2.0\n" ++
  "//\n" ++
  "// Unless required by applicable law or agreed to in writing, software\n" ++
  "// distributed under the License is distributed on an \"AS IS\" BASIS,\n" ++
  "// WITHOUT WARRANTIES OR CONDITIONS OF ANY KIND, either express or implied.\n" ++
  "// See the License for the specific language governing permissions and\n" ++
  "// limitations under the License.\n" ++
  "\n" ++
  "// Autogenerated by gen.go, do not edit.\n" ++
  "\n" ++
  "package cairo\n" ++
  "\n" ++
  "import (\n" ++
  "\t\"io\"\n" ++
  "\t\"unsafe\"\n" ++
  ")\n" ++
  "\n" ++
  "/*\n" ++
  "#cgo pkg-config: cairo\n" ++
  "#include <cairo.h>\n" ++
  "#include <cairo-xlib.h>\n" ++
  "#include <stdlib.h>\n" ++
  "\n" ++
  "// A cairo_write_func_t for use in cairo_surface_write_to_png.\n" ++
  "cairo_status_t gocairo_write_func(void *closure,\n" ++
  "                                  const unsigned char *data,\n" ++
  "                                  unsigned int length) \x7b\n" ++
  "  return gocairoWriteFunc(closure, data, length)\n" ++
  "    ? CAIRO_STATUS_SUCCESS\n" ++
  "    : CAIRO_STATUS_WRITE_ERROR;\n" ++
  "\x7d\n" ++
  "*/\n" ++
  "import \"C\"\n" ++
  "\n" ++
  "// Error implements the error interface.\n" ++
  "func (s Status) Error() string \x7b\n" ++
  "\treturn C.GoString(C.cairo_status_to_string(C.cairo_status_t(s)))\n" ++
  "\x7d\n" ++
  "\n" ++
  "// WriteToPNG encodes a Surface to an io.Writer as a PNG file.\n" ++
  "func (surface *Surface) WriteToPNG(w io.Writer) error \x7b\n" ++
  "\tdata := writeClosure\x7bw: w\x7d\n" ++
  "\tstatus := C.cairo_surface_write_to_png_stream((*C.cairo_surface_t)(surface.Ptr),\n" ++
  "\t\t(C.cairo_write_func_t)(unsafe.Pointer(C.gocairo_write_func)),\n" ++
  "\t\tunsafe.Pointer(&data))\n" ++
  "    // TODO: which should we prefer between writeClosure.err and status?\n" ++
  "    // Perhaps test against CAIRO_STATUS_WRITE_ERROR?  Needs a test case.\n" ++
  "\treturn Status(status).toError()\n" ++
  "\x7d\n" ++
  "\n" ++
  "// PathIter creates an iterator over the segments within the path.\n" ++
  "func (p *Path) Iter() *PathIter \x7b\n" ++
  "\treturn &PathIter\x7bpath:p, i:0\x7d\n" ++
  "\x7d\n" ++
  "\n" ++
  "// PathIter iterates a Path.\n" ++
  "type PathIter struct \x7b\n" ++
  "\tpath *Path\n" ++
  "\ti    C.int\n" ++
  "\x7d\n" ++
  "\n" ++
  "// Next returns the next PathSegment, or returns nil at the end of the path.\n" ++
  "func (pi *PathIter) Next() *PathSegment \x7b\n" ++
  "\tif pi.i >= pi.path.Ptr.num_data \x7b\n" ++
  "\t\treturn nil\n" ++
  "\t\x7d\n" ++
  "\t// path.data is an array of cairo_path_data_t, but the union makes\n" ++
  "\t// things complicated.\n" ++
  "\tdataArray := (*[1<<30]C.cairo_path_data_t)(unsafe.Pointer(pi.path.Ptr.data))\n" ++
  "\tseg, ofs := decodePathSegment(unsafe.Pointer(&dataArray[pi.i]))\n" ++
  "\tpi.i += C.int(ofs)\n" ++
  "\treturn seg\n" ++
  "\x7d"

/-- Translation of `process`: the prelude, the subtype embedding
declarations, then the declaration loop over the input list. -/
def process (decls : List CDecl) : GenRes ProcState :=
  processDecls staticTables decls
    { shared := sharedTypes,
      lines := [preludeText]
               ++ subTypes.map (fun t => "type " ++ t.1 ++ " struct \x7b\n*" ++ t.2 ++ "\n\x7d") }

/-- The accumulated output text of a run (each `w.Print` appends a newline
to what it prints). -/
def outputText : GenRes ProcState → Option String
  | .ok st => some (goJoin "" (st.lines.map (fun l => l ++ "\n")))
  | .skip => none
  | .fatal _ => none

/-! ## Emitter finalisation (`Writer.Source`, lines 171-179) -/

/-- Translation of `Writer.Source`, with the external `format.Source`
service passed in as a function that either returns formatted text or
fails: on failure the raw accumulated buffer is returned unchanged (the
warning goes to the diagnostics stream, not the result). -/
def writerSource (fmtSource : String → Option String) (buf : String) : String :=
  match fmtSource buf with
  | some src => src
  | none => buf

/-! ## Spec-side characterisation of the parameter list (for the refinement
claim about type-annotation elision) -/

/-- Stated from the specification's words, independently of the emitter's
loop: the `i`-th parameter carries its type annotation exactly when it is
the last input parameter or its Go type differs from the Go type of the
immediately following input parameter; entries are joined by `", "`. -/
def specArgSig (inArgs inArgTypes : List String) : String :=
  goJoin ", "
    ((List.range inArgs.length).map (fun i =>
      inArgs.getD i "" ++
        (if i + 1 = inArgs.length ∨ inArgTypes.getD i "" ≠ inArgTypes.getD (i + 1) "" then
          " " ++ inArgTypes.getD i ""
        else "")))

/-! ## Concrete inputs used by witnesses and counterexamples -/

/-- The mapped Go type of a by-value scalar type (defaults to the empty
string on unmapped types; the theorems' hypotheses keep that case
unreachable). -/
def goTypeOfBasic (shared : List (String × String)) (s : String) : String :=
  match cTypeToMap shared (.basic s) with
  | some m => m.goType
  | none => ""

/-- The run summary reported by the final log line: (intentional, TODO). -/
def procSummary : GenRes ProcState → Option (Nat × Nat)
  | .ok st => some (st.intentional, st.todo)
  | .skip => none
  | .fatal _ => none

/-- `cairo_image_surface_get_format(cairo_surface_t*)` returning
`cairo_format_t`. -/
def imageSurfaceGetFormatDecl : CDecl :=
  ⟨"cairo_image_surface_get_format", .ordinary,
   .func (.basic "cairo_format_t") [("surface", .ptr (.basic "cairo_surface_t"))]⟩

/-- A function whose converted name is exactly the derived name
`ImageSurface` (empty remainder after stripping the prefix). -/
def imageSurfaceBareDecl : CDecl :=
  ⟨"cairo_image_surface", .ordinary,
   .func .void [("surface", .ptr (.basic "cairo_surface_t"))]⟩

/-- `cairo_get_current_point(cairo_t*, double*, double*)`, the repository's
archetypal `{false, true, true}` out-parameter function. -/
def getCurrentPointDecl : CDecl :=
  ⟨"cairo_get_current_point", .ordinary,
   .func .void [("cr", .ptr (.basic "cairo_t")),
                ("x", .ptr (.basic "double")),
                ("y", .ptr (.basic "double"))]⟩

/-- A declaration named `cairo_clip_extents` (which has a configured
5-entry `outParams` spec) whose return type is unmapped (`typeTodoList`)
and whose parameter count differs from the spec's length. -/
def clipExtentsBadDecl : CDecl :=
  ⟨"cairo_clip_extents", .ordinary, .func (.basic "cairo_rectangle_int_t") []⟩

/-- A declaration named `cairo_clip_extents` with a mappable `void` return
type but only 3 parameters against the 5-entry spec. -/
def clipExtentsShortDecl : CDecl :=
  ⟨"cairo_clip_extents", .ordinary,
   .func .void [("cr", .ptr (.basic "cairo_t")),
                ("x1", .ptr (.basic "double")),
                ("y1", .ptr (.basic "double"))]⟩

/-- A declaration named `cairo_get_current_point` with its configured
3-entry spec but a non-void `int` return type. -/
def getCurrentPointIntDecl : CDecl :=
  ⟨"cairo_get_current_point", .ordinary,
   .func (.basic "int") [("cr", .ptr (.basic "cairo_t")),
                         ("x", .ptr (.basic "double")),
                         ("y", .ptr (.basic "double"))]⟩

/-- A declaration caught by the `_func` suffix rule. -/
def funcSuffixDecl : CDecl := ⟨"cairo_foo_func", .ordinary, .func .void []⟩

/-- A declaration caught by the `_user_data` suffix rule. -/
def userDataSuffixDecl : CDecl := ⟨"cairo_foo_user_data", .ordinary, .func .void []⟩

/-- A function declaration skipped because its return type is unmapped. -/
def unmappedRetDecl : CDecl :=
  ⟨"cairo_gimme", .ordinary, .func (.basic "cairo_rectangle_int_t") []⟩

/-- A normal function declaration that generates successfully. -/
def normalFuncDecl : CDecl := ⟨"cairo_moo", .ordinary, .func .void []⟩

/-- Tables in which the name `cairo_conflicted` appears both in the
manual-override table and in the explicit exclusion table. -/
def conflictTables : SkipTables :=
  ⟨[("cairo_conflicted", "some reason")], [], [],
   [("cairo_conflicted", "func Conflicted() \x7b\x7d")]⟩

def conflictedDecl : CDecl := ⟨"cairo_conflicted", .ordinary, .func .void []⟩

/-- A fresh driver state with empty output, for exercising the dispatch. -/
def emptyState : ProcState := ⟨sharedTypes, 0, 0, []⟩

/-! ## Verification of the claims -/

/-- C6: for every accumulated text buffer, the emitter's finalize operation
(`Writer.Source`) attempts external formatting and, whenever formatting
fails, returns exactly the raw accumulated bytes unchanged; it never raises
a hard failure and always returns some output (either the formatted or the
raw text). -/
theorem claim_C6 (fmtSource : String → Option String) (buf : String) :
    (fmtSource buf = none → writerSource fmtSource buf = buf) ∧
    (writerSource fmtSource buf = buf ∨ fmtSource buf = some (writerSource fmtSource buf)) := by
  constructor
  · intro h
    simp [writerSource, h]
  · cases h : fmtSource buf with
    | none => left; simp [writerSource, h]
    | some src => right; simp [writerSource, h]

theorem claim_C6_witness :
    (fun _ => (none : Option String)) "package cairo" = none ∧
    writerSource (fun _ => none) "package cairo" = "package cairo" :=
  ⟨rfl, (claim_C6 (fun _ => none) "package cairo").1 rfl⟩

/-- C9: running the generation pass twice on the same Declaration List with
the same static registries produces byte-identical output text both times.
In this embedding every registry (including the mutated `sharedTypes`) is
explicit state reset by `process`, and no construct of the generator is
nondeterministic (no Go map is ever ranged over), so the output is a
function of the input list and the claim is reflexivity. -/
theorem claim_C9 (decls : List CDecl) :
    outputText (process decls) = outputText (process decls) := rfl

/-- C2 (amended): a declaration present in both the manual-override table
and the exclusion-by-name table takes the exclusion path: the
exclusion-by-name lookup is evaluated before the manual-override lookup,
the declaration is counted as an intentional skip, and the replacement
text is not emitted.  (The original claim asserted the opposite
precedence; with the shipped registries the override table is empty, so
the conflict never arises in an actual run.) -/
theorem claim_C2 (tabs : SkipTables) (st : ProcState) (d : CDecl) (impl reason : String)
    (hm : lookupA d.name tabs.manualImplT = some impl)
    (hx : lookupA d.name tabs.intentionalSkipT = some reason) :
    processOne tabs st d = .ok { st with intentional := st.intentional + 1 } := by
  unfold processOne
  rw [hx]

theorem claim_C2_witness :
    lookupA conflictedDecl.name conflictTables.manualImplT = some "func Conflicted() \x7b\x7d" ∧
    lookupA conflictedDecl.name conflictTables.intentionalSkipT = some "some reason" ∧
    processOne conflictTables emptyState conflictedDecl =
      .ok { emptyState with intentional := 1 } :=
  ⟨rfl, rfl, claim_C2 conflictTables emptyState conflictedDecl _ _ rfl rfl⟩

/-- C2 counterexample: with tables in which `cairo_conflicted` is both
manually overridden and excluded by name, the dispatch counts the
declaration as skipped and does not emit the replacement text — the
override path is not taken, contradicting the claim as stated. -/
theorem claim_C2_cex :
    lookupA conflictedDecl.name conflictTables.manualImplT = some "func Conflicted() \x7b\x7d" ∧
    (lookupA conflictedDecl.name conflictTables.intentionalSkipT).isSome = true ∧
    processOne conflictTables emptyState conflictedDecl = .ok ⟨sharedTypes, 1, 0, []⟩ :=
  ⟨rfl, rfl, rfl⟩

/-- C3 counterexample: a Declaration List with exactly one suffix-excluded
declaration (`cairo_foo_user_data`), one function skipped for an unmapped
return type, and one normal function yields a summary of two intentional
skips and zero TODO skips — not the claimed one-and-one split. -/
theorem claim_C3_cex :
    procSummary (process [userDataSuffixDecl, unmappedRetDecl, normalFuncDecl]) = some (2, 0) := rfl

/-- C3 (amended): callback-family suffix exclusions (`_func`, `_func_t`,
`_callback`, `_callback_data`, `_callback_t`) are counted in the TODO
category, while an unmapped-type function skip is counted in the
intentional category — the attribution opposite to the original claim.
For a list with one callback-suffix declaration, one unmapped-type
function and one normal function the summary shows exactly one
intentional and one TODO skip; the single-declaration runs pin down
which declaration lands in which counter. -/
theorem claim_C3 :
    procSummary (process [funcSuffixDecl, unmappedRetDecl, normalFuncDecl]) = some (1, 1) ∧
    procSummary (process [funcSuffixDecl]) = some (0, 1) ∧
    procSummary (process [unmappedRetDecl]) = some (1, 0) ∧
    procSummary (process [normalFuncDecl]) = some (0, 0) :=
  ⟨rfl, rfl, rfl, rfl⟩

/-- C4 counterexample: a declaration named `cairo_clip_extents` (whose
configured OutParamSpec has length 5) with zero parameters but an
unmapped return type is skipped, not panicked on: the return-type mapping
is consulted before the OutParamSpec is validated. -/
theorem claim_C4_cex :
    clipExtentsBadDecl.type = CType.func (.basic "cairo_rectangle_int_t") [] ∧
    lookupA clipExtentsBadDecl.name outParams = some [false, true, true, true, true] ∧
    genFunc sharedTypes clipExtentsBadDecl = .skip :=
  ⟨rfl, rfl, rfl⟩

/-- C4 (amended): for a function declaration with a configured
OutParamSpec whose natural return type is mappable, generation panics
whenever the spec's length differs from the parameter count, and likewise
whenever the function also has a non-void natural return type; when
neither violation holds, generation proceeds past the validation into the
body synthesis.  (When the return type is unmapped the declaration is
skipped before the validation runs — see the counterexample.) -/
theorem claim_C4 (shared : List (String × String)) (f : CDecl) (retBase : CType)
    (params : List (String × CType)) (outs : List Bool)
    (hf : f.type = .func retBase params)
    (ho : lookupA f.name outParams = some outs)
    (hm : (cTypeToMap shared retBase).isSome = true) :
    (outs.length ≠ params.length →
       genFunc shared f = .fatal ("outParams mismatch for " ++ f.name)) ∧
    (outs.length = params.length → retBase.isVoid = false →
       genFunc shared f = .fatal (f.name ++ ": outParams and return type")) ∧
    (outs.length = params.length → retBase.isVoid = true →
       genFunc shared f =
         genFuncBody shared f.name (cNameToGoUpper f.name) none [] (some outs) params) := by
  obtain ⟨fn, fs, ft⟩ := f
  simp only at hf
  subst hf
  obtain ⟨retm, hretm⟩ := Option.isSome_iff_exists.mp hm
  refine ⟨?_, ?_, ?_⟩
  · intro hne
    simp only [genFunc, hretm, ho]
    rw [if_pos hne]
  · intro heq hnv
    simp only [genFunc, hretm, ho, hnv]
    rw [if_neg (by simp [heq]), if_pos]
    simp only [retPair, hnv, Bool.false_eq_true, if_false]
    cases hr : retSubMatch retm.goType (cNameToGoUpper fn) <;> simp [hr]
  · intro heq hv
    simp only [genFunc, hretm, ho, hv]
    rw [if_neg (by simp [heq]), if_neg (by simp [retPair, hv])]
    simp [retPair, hv]



lemma renderPart_append (out p : List Char) :
    renderPart true out p = out ++ renderPart true [] p := by
  unfold renderPart
  by_cases h : p = "cairo".data ∨ p = "t".data
  · simp [h]
  · by_cases ha : acronymB p
    · simp [h, ha]
    · simp [h, ha]

lemma foldl_renderPart_append (parts : List (List Char)) (acc : List Char) :
    parts.foldl (renderPart true) acc = acc ++ parts.foldl (renderPart true) [] := by
  induction parts generalizing acc with
  | nil => simp
  | cons p ps ih =>
    simp only [List.foldl_cons]
    rw [ih (renderPart true acc p), ih (renderPart true [] p),
        renderPart_append acc p, List.append_assoc]

lemma foldl_renderPart_mem (parts : List (List Char)) (p : List Char)
    (hmem : p ∈ parts) (hac : acronymB p = true) :
    ∃ s t, parts.foldl (renderPart true) [] = s ++ toUpperL p ++ t := by
  induction parts with
  | nil => cases hmem
  | cons q qs ih =>
    simp only [List.foldl_cons]
    rw [foldl_renderPart_append qs (renderPart true [] q)]
    rcases List.mem_cons.mp hmem with h | h
    · subst h
      have h1 : ¬(p = "cairo".data ∨ p = "t".data) := by
        rintro (h | h) <;> subst h <;> simp at hac <;> cases hac
      refine ⟨[], qs.foldl (renderPart true) [], ?_⟩
      simp [renderPart, h1, hac]
    · obtain ⟨s, t, hst⟩ := ih h
      exact ⟨renderPart true [] q ++ s, t, by rw [hst]; simp [List.append_assoc]⟩

/-- C8: the exported-case name conversion maps `cairo_image_surface_create`
to `ImageSurfaceCreate` and `cairo_t` to `Context`, and for every
identifier, every underscore-separated token in the configured acronym
set appears fully upper-cased in the converted name, regardless of the
token's position. -/
theorem claim_C8 :
    cNameToGo "cairo_image_surface_create" true = "ImageSurfaceCreate" ∧
    cNameToGo "cairo_t" true = "Context" ∧
    ∀ (name : String) (p : List Char), p ∈ splitUnderscore name.data → acronymB p = true →
      ∃ s t, (cNameToGo name true).data = s ++ toUpperL p ++ t := by
  refine ⟨by decide, by decide, ?_⟩
  intro name p hmem hac
  unfold cNameToGo
  by_cases h1 : name = "int"
  · subst h1
    have : ∀ q ∈ splitUnderscore ("int" : String).data, acronymB q = false := by decide
    rw [this p hmem] at hac; cases hac
  · by_cases h2 : name = "double"
    · subst h2
      have : ∀ q ∈ splitUnderscore ("double" : String).data, acronymB q = false := by decide
      rw [this p hmem] at hac; cases hac
    · by_cases h3 : name = "ulong"
      · subst h3
        have : ∀ q ∈ splitUnderscore ("ulong" : String).data, acronymB q = false := by decide
        rw [this p hmem] at hac; cases hac
      · by_cases h4 : name = "uint"
        · subst h4
          have : ∀ q ∈ splitUnderscore ("uint" : String).data, acronymB q = false := by decide
          rw [this p hmem] at hac; cases hac
        · by_cases h5 : name = "cairo_t"
          · subst h5
            have : ∀ q ∈ splitUnderscore ("cairo_t" : String).data, acronymB q = false := by decide
            rw [this p hmem] at hac; cases hac
          · simp only [h1, h2, h3, h4, h5, if_false]
            exact foldl_renderPart_mem _ p hmem hac

theorem claim_C8_witness :
    "argb32".data ∈ splitUnderscore ("cairo_format_argb32" : String).data ∧
    acronymB "argb32".data = true ∧
    ∃ s t, (cNameToGo "cairo_format_argb32" true).data = s ++ toUpperL "argb32".data ++ t :=
  ⟨by decide, by decide, claim_C8.2.2 "cairo_format_argb32" "argb32".data (by decide) (by decide)⟩



lemma pfxOf_total : ∀ (c a b : List Char), pfxOf a c = true → pfxOf b c = true →
    pfxOf a b = true ∨ pfxOf b a = true := by
  intro c
  induction c with
  | nil =>
    intro a b ha _
    cases a with
    | nil => left; rfl
    | cons x xs => simp [pfxOf] at ha
  | cons x xs ih =>
    intro a b ha hb
    cases a with
    | nil => left; rfl
    | cons y ys =>
      cases b with
      | nil => right; rfl
      | cons z zs =>
        simp only [pfxOf, Bool.and_eq_true, beq_iff_eq] at ha hb ⊢
        obtain ⟨hy, ha2⟩ := ha
        obtain ⟨hz, hb2⟩ := hb
        subst hy; subst hz
        rcases ih ys zs ha2 hb2 with h | h
        · left; exact ⟨rfl, h⟩
        · right; exact ⟨rfl, h⟩

lemma pfx_excl (n a b : String) (hab : pfxOf a.data b.data = false)
    (hba : pfxOf b.data a.data = false) (h : goHasPfx b n = true) :
    goHasPfx a n = false := by
  simp only [goHasPfx] at h ⊢
  cases hx : pfxOf a.data n.data
  · rfl
  · exfalso
    rcases pfxOf_total n.data a.data b.data hx h with h1 | h1
    · rw [hab] at h1; cases h1
    · rw [hba] at h1; cases h1

/-- With the configured `subTypes` table, any pair whose derived name
prefixes the candidate is the pair the scan finds (derived names with a
common base are pairwise prefix-incompatible, so the first match is the
only match). -/
lemma subMatch_subtype (n D B : String) (hmem : (D, B) ∈ subTypes)
    (hpfx : goHasPfx D n = true) :
    subMatch n B subTypes = some (goDropStr n D.length, "*" ++ D) := by
  simp only [subTypes, List.mem_cons, List.not_mem_nil, or_false] at hmem
  rcases hmem with h | h | h | h | h | h | h <;>
    (rw [Prod.mk.injEq] at h; obtain ⟨rfl, rfl⟩ := h)
  · simp [subMatch, subTypes, hpfx]
  · have h1 : goHasPfx "ImageSurface" n = false :=
      pfx_excl n "ImageSurface" "RecordingSurface" (by decide) (by decide) hpfx
    simp [subMatch, subTypes, h1, hpfx]
  · have h1 : goHasPfx "ImageSurface" n = false :=
      pfx_excl n "ImageSurface" "SurfaceObserver" (by decide) (by decide) hpfx
    have h2 : goHasPfx "RecordingSurface" n = false :=
      pfx_excl n "RecordingSurface" "SurfaceObserver" (by decide) (by decide) hpfx
    simp [subMatch, subTypes, h1, h2, hpfx]
  · simp [subMatch, subTypes, hpfx]
  · simp [subMatch, subTypes, hpfx]
  · have h1 : goHasPfx "ImageSurface" n = false :=
      pfx_excl n "ImageSurface" "XlibSurface" (by decide) (by decide) hpfx
    have h2 : goHasPfx "RecordingSurface" n = false :=
      pfx_excl n "RecordingSurface" "XlibSurface" (by decide) (by decide) hpfx
    have h3 : goHasPfx "SurfaceObserver" n = false :=
      pfx_excl n "SurfaceObserver" "XlibSurface" (by decide) (by decide) hpfx
    simp [subMatch, subTypes, h1, h2, h3, hpfx]
  · simp [subMatch, subTypes, hpfx]

/-- C5: the method-inference function returns the whole candidate name
unmodified when the declared type is the primary context type `Context`;
otherwise a configured subtype pair whose derived name prefixes the
candidate and whose base equals the declared type takes priority over a
plain prefix match (first configured pair wins — with the shipped table
the match is unique); a plain match strips the declared type name; and
when neither matches, no method relationship is inferred. -/
theorem claim_C5 (g ty : String) :
    (ty = "Context" → shouldBeMethod g ty = (g, "")) ∧
    (∀ D, ty ≠ "Context" → (D, ty) ∈ subTypes → goHasPfx D g = true →
       shouldBeMethod g ty = (goDropStr g D.length, "*" ++ D)) ∧
    (ty ≠ "Context" → subMatch g ty subTypes = none →
       ty ≠ "" → goHasPfx ty g = true →
       shouldBeMethod g ty = (goDropStr g ty.length, "")) ∧
    (ty ≠ "Context" → subMatch g ty subTypes = none →
       ¬(ty ≠ "" ∧ goHasPfx ty g = true) →
       shouldBeMethod g ty = ("", "")) := by
  refine ⟨?_, ?_, ?_, ?_⟩
  · intro h
    simp [shouldBeMethod, h]
  · intro D hcx hmem hpfx
    rw [shouldBeMethod, if_neg hcx, subMatch_subtype g D ty hmem hpfx]
  · intro hcx hnone hne hpfx
    rw [shouldBeMethod, if_neg hcx, hnone]
    simp [hne, hpfx]
  · intro hcx hnone hno
    rw [shouldBeMethod, if_neg hcx, hnone]
    simp only []
    rw [if_neg hno]

theorem claim_C5_witness :
    shouldBeMethod "ImageSurfaceGetFormat" "Surface" = ("GetFormat", "*ImageSurface") ∧
    shouldBeMethod "Foo" "Context" = ("Foo", "") := by
  have h := (claim_C5 "ImageSurfaceGetFormat" "Surface").2.1 "ImageSurface"
    (by decide) (by decide) (by decide)
  refine ⟨?_, (claim_C5 "Foo" "Context").1 rfl⟩
  rw [h]; decide



theorem claim_C4_witness :
    genFunc sharedTypes clipExtentsShortDecl =
      .fatal ("outParams mismatch for " ++ "cairo_clip_extents") ∧
    genFunc sharedTypes getCurrentPointIntDecl =
      .fatal ("cairo_get_current_point" ++ ": outParams and return type") ∧
    genFunc sharedTypes getCurrentPointDecl =
      genFuncBody sharedTypes "cairo_get_current_point"
        (cNameToGoUpper "cairo_get_current_point") none [] (some [false, true, true])
        [("cr", .ptr (.basic "cairo_t")),
         ("x", .ptr (.basic "double")),
         ("y", .ptr (.basic "double"))] :=
  ⟨(claim_C4 sharedTypes clipExtentsShortDecl .void _ _ rfl rfl rfl).1 (by decide),
   (claim_C4 sharedTypes getCurrentPointIntDecl (.basic "int") _ _ rfl rfl rfl).2.1 rfl rfl,
   (claim_C4 sharedTypes getCurrentPointDecl .void _ _ rfl rfl rfl).2.2 rfl rfl⟩



lemma paramStep_pres (shared : List (String × String)) (outs : Option (List Bool))
    (arrayP : Option Nat) (i : Nat) (dn : String) (dt : CType) (st st1 : LoopState)
    (hi : 1 ≤ i)
    (h : paramStep shared outs arrayP i dn dt st = .next st1 ∨
         paramStep shared outs arrayP i dn dt st = .skipNext st1) :
    st1.name = st.name ∧ st1.methodSig = st.methodSig ∧
    st1.getErrorCall = st.getErrorCall := by
  have h0 : ¬(i = 0) := by omega
  simp only [paramStep, h0, false_and, if_false] at h
  rcases h with h | h <;>
    (repeat' split at h) <;> simp_all <;> (obtain rfl := h.symm) <;> simp

lemma paramStep_len (shared : List (String × String)) (outs : Option (List Bool))
    (arrayP : Option Nat) (i : Nat) (dn : String) (dt : CType) (st st1 : LoopState)
    (hlen : st.inArgs.length = st.inArgTypes.length)
    (h : paramStep shared outs arrayP i dn dt st = .next st1 ∨
         paramStep shared outs arrayP i dn dt st = .skipNext st1) :
    st1.inArgs.length = st1.inArgTypes.length := by
  simp only [paramStep] at h
  rcases h with h | h <;>
    (repeat' split at h) <;> simp_all <;> (obtain rfl := h.symm) <;> simp [hlen]


lemma paramLoop_pres (shared : List (String × String)) (outs : Option (List Bool))
    (arrayP : Option Nat) (i : Nat) (params : List (String × CType)) (st : LoopState) :
    ∀ st', paramLoop shared outs arrayP i params st = .ok st' → 1 ≤ i →
      st'.name = st.name ∧ st'.methodSig = st.methodSig ∧
      st'.getErrorCall = st.getErrorCall := by
  induction i, params, st using paramLoop.induct shared outs arrayP with
  | case1 x st =>
    intro st' hok _
    rw [show paramLoop shared outs arrayP x [] st = .ok st from rfl] at hok
    cases hok
    exact ⟨rfl, rfl, rfl⟩
  | case2 i dn dt rest st st1 hstep ih =>
    intro st' hok hi
    have hok2 : paramLoop shared outs arrayP (i + 1) rest st1 = .ok st' := by
      rw [paramLoop, hstep] at hok; exact hok
    obtain ⟨h1, h2, h3⟩ := ih st' hok2 (by omega)
    obtain ⟨g1, g2, g3⟩ := paramStep_pres shared outs arrayP i dn dt st st1 hi (Or.inl hstep)
    exact ⟨h1.trans g1, h2.trans g2, h3.trans g3⟩
  | case3 i dn dt st st1 hstep =>
    intro st' hok hi
    have hok2 : GenRes.ok st1 = GenRes.ok st' := by
      rw [paramLoop, hstep] at hok; exact hok
    cases hok2
    exact paramStep_pres shared outs arrayP i dn dt st st1 hi (Or.inr hstep)
  | case4 i dn dt st st1 hstep head rest2 ih =>
    intro st' hok hi
    have hok2 : paramLoop shared outs arrayP (i + 2) rest2 st1 = .ok st' := by
      rw [paramLoop, hstep] at hok; exact hok
    obtain ⟨h1, h2, h3⟩ := ih st' hok2 (by omega)
    obtain ⟨g1, g2, g3⟩ := paramStep_pres shared outs arrayP i dn dt st st1 hi (Or.inr hstep)
    exact ⟨h1.trans g1, h2.trans g2, h3.trans g3⟩
  | case5 i dn dt rest st hstep =>
    intro st' hok _
    rw [paramLoop, hstep] at hok
    cases hok
  | case6 i dn dt rest st msg hstep =>
    intro st' hok _
    rw [paramLoop, hstep] at hok
    cases hok

lemma paramLoop_len (shared : List (String × String)) (outs : Option (List Bool))
    (arrayP : Option Nat) (i : Nat) (params : List (String × CType)) (st : LoopState) :
    ∀ st', paramLoop shared outs arrayP i params st = .ok st' →
      st.inArgs.length = st.inArgTypes.length →
      st'.inArgs.length = st'.inArgTypes.length := by
  induction i, params, st using paramLoop.induct shared outs arrayP with
  | case1 x st =>
    intro st' hok hlen
    rw [show paramLoop shared outs arrayP x [] st = .ok st from rfl] at hok
    cases hok
    exact hlen
  | case2 i dn dt rest st st1 hstep ih =>
    intro st' hok hlen
    have hok2 : paramLoop shared outs arrayP (i + 1) rest st1 = .ok st' := by
      rw [paramLoop, hstep] at hok; exact hok
    exact ih st' hok2 (paramStep_len shared outs arrayP i dn dt st st1 hlen (Or.inl hstep))
  | case3 i dn dt st st1 hstep =>
    intro st' hok hlen
    have hok2 : GenRes.ok st1 = GenRes.ok st' := by
      rw [paramLoop, hstep] at hok; exact hok
    cases hok2
    exact paramStep_len shared outs arrayP i dn dt st st1 hlen (Or.inr hstep)
  | case4 i dn dt st st1 hstep head rest2 ih =>
    intro st' hok hlen
    have hok2 : paramLoop shared outs arrayP (i + 2) rest2 st1 = .ok st' := by
      rw [paramLoop, hstep] at hok; exact hok
    exact ih st' hok2 (paramStep_len shared outs arrayP i dn dt st st1 hlen (Or.inr hstep))
  | case5 i dn dt rest st hstep =>
    intro st' hok _
    rw [paramLoop, hstep] at hok
    cases hok
  | case6 i dn dt rest st msg hstep =>
    intro st' hok _
    rw [paramLoop, hstep] at hok
    cases hok


lemma strAssoc (a b c : String) : a ++ b ++ c = a ++ (b ++ c) := by
  apply String.ext
  simp only [String.data_append, List.append_assoc]

lemma goJoin_cons (sep x : String) (xs : List String) (h : xs ≠ []) :
    goJoin sep (x :: xs) = x ++ sep ++ goJoin sep xs := by
  cases xs with
  | nil => cases h rfl
  | cons y ys => rfl

lemma specArgSig_cons (a a2 t t2 : String) (as2 ts2 : List String) :
    specArgSig (a :: a2 :: as2) (t :: t2 :: ts2) =
      (a ++ if t ≠ t2 then " " ++ t else "") ++ ", " ++ specArgSig (a2 :: as2) (t2 :: ts2) := by
  unfold specArgSig
  rw [show (a :: a2 :: as2).length = (a2 :: as2).length + 1 from rfl,
      List.range_succ_eq_map, List.map_cons, List.map_map]
  have hmap : ∀ i ∈ List.range (a2 :: as2).length,
      ((fun i => (a :: a2 :: as2).getD i "" ++
          if i + 1 = (a2 :: as2).length + 1 ∨
             (t :: t2 :: ts2).getD i "" ≠ (t :: t2 :: ts2).getD (i + 1) "" then
            " " ++ (t :: t2 :: ts2).getD i "" else "") ∘ Nat.succ) i =
      (fun i => (a2 :: as2).getD i "" ++
          if i + 1 = (a2 :: as2).length ∨
             (t2 :: ts2).getD i "" ≠ (t2 :: ts2).getD (i + 1) "" then
            " " ++ (t2 :: ts2).getD i "" else "") i := by
    intro i _
    simp only [Function.comp_apply, List.getD_cons_succ]
    have hiff : (i.succ + 1 = (a2 :: as2).length + 1) = (i + 1 = (a2 :: as2).length) := by
      rw [eq_iff_iff]; omega
    simp only [hiff]
  rw [List.map_congr_left hmap,
      goJoin_cons _ _ _ (by simp [List.range_eq_nil])]
  congr 2
  simp only [List.getD_cons_zero, List.getD_cons_succ]
  have hcond : ((0 : Nat) + 1 = (a2 :: as2).length + 1 ∨ ¬t = t2) = (¬t = t2) := by
    rw [eq_iff_iff]
    constructor
    · rintro (hc | hc)
      · simp at hc
      · exact hc
    · intro hc; right; exact hc
  simp only [hcond]

lemma buildArgSig_spec : ∀ (as ts : List String), as.length = ts.length →
    buildArgSig as ts = specArgSig as ts := by
  intro as
  induction as with
  | nil =>
    intro ts _
    simp [buildArgSig, specArgSig, goJoin]
  | cons a as ih =>
    intro ts h
    cases ts with
    | nil => simp at h
    | cons t ts =>
      cases as with
      | nil =>
        cases ts with
        | nil =>
          simp [buildArgSig, specArgSig, goJoin, strAssoc]
        | cons t2 ts2 => simp at h
      | cons a2 as2 =>
        cases ts with
        | nil => simp at h
        | cons t2 ts2 =>
          have hlen : (a2 :: as2).length = (t2 :: ts2).length := by
            simpa using h
          rw [show buildArgSig (a :: a2 :: as2) (t :: t2 :: ts2) =
                (if t ≠ t2 then a ++ " " ++ t else a) ++ ", " ++
                  buildArgSig (a2 :: as2) (t2 :: ts2) from rfl,
              ih (t2 :: ts2) hlen, specArgSig_cons]
          congr 2
          by_cases hq : t = t2
          · simp [hq]
          · simp [hq, strAssoc]

lemma genFunc_ok_inv (shared : List (String × String)) (f : CDecl) (g : GenFun)
    (h : genFunc shared f = .ok g) :
    ∃ (retBase : CType) (params : List (String × CType)) (retType0 : typeMap)
      (outs : Option (List Bool)) (st : LoopState),
      f.type = .func retBase params ∧
      paramLoop shared outs (lookupA f.name arrayParams) 0 params
        { name := cNameToGoUpper f.name,
          retTypeSigs := (retPair (cNameToGoUpper f.name) retBase retType0).2 } = .ok st ∧
      g = mkGenFun f.name (retPair (cNameToGoUpper f.name) retBase retType0).1 st := by
  simp only [genFunc, genFuncBody] at h
  split at h
  case _ retBase params hft =>
    split at h
    case _ => exact GenRes.noConfusion h
    case _ retType0 hmap =>
      split at h
      case _ flags hout =>
        split at h
        case _ => exact GenRes.noConfusion h
        case _ =>
          split at h
          case _ => exact GenRes.noConfusion h
          case _ =>
            split at h
            case _ st hloop =>
              injection h with hg
              subst hg
              exact ⟨retBase, params, retType0, some flags, st, hft, hloop, rfl⟩
            case _ => exact GenRes.noConfusion h
            case _ => exact GenRes.noConfusion h
      case _ hout =>
        split at h
        case _ st hloop =>
          injection h with hg
          subst hg
          exact ⟨retBase, params, retType0, none, st, hft, hloop, rfl⟩
        case _ => exact GenRes.noConfusion h
        case _ => exact GenRes.noConfusion h
  case _ => exact GenRes.noConfusion h

/-- C10: in every generated function's emitted parameter list, a
parameter's type annotation is written exactly when it is the last input
parameter or its Go type differs from the Go type of the immediately
following input parameter (`specArgSig` is that specification, stated
independently of the emitter's loop). -/
theorem claim_C10 (shared : List (String × String)) (f : CDecl) :
    (genFunc shared f).toOption.map GenFun.argSig =
      (genFunc shared f).toOption.map (fun g => specArgSig g.inArgs g.inArgTypes) := by
  cases h : genFunc shared f with
  | skip => rfl
  | fatal msg => rfl
  | ok g =>
    obtain ⟨retBase, params, retType0, outs, st, hft, hloop, hg⟩ := genFunc_ok_inv shared f g h
    subst hg
    have hlen : st.inArgs.length = st.inArgTypes.length :=
      paramLoop_len shared outs (lookupA f.name arrayParams) 0 params _ st hloop rfl
    simp only [GenRes.toOption, Option.map_some']
    congr 1
    show buildArgSig st.inArgs st.inArgTypes = specArgSig st.inArgs st.inArgTypes
    exact buildArgSig_spec st.inArgs st.inArgTypes hlen

lemma outParams_array_none (n : String) (l : List Bool)
    (h : lookupA n outParams = some l) : lookupA n arrayParams = none := by
  simp only [outParams, lookupA] at h
  split_ifs at h with h1 h2 h3 h4 h5 h6 h7 h8 h9
  · rw [← h1]; decide
  · rw [← h2]; decide
  · rw [← h3]; decide
  · rw [← h4]; decide
  · rw [← h5]; decide
  · rw [← h6]; decide
  · rw [← h7]; decide
  · rw [← h8]; decide
  · rw [← h9]; decide

lemma paramStep_out (shared : List (String × String)) (flags : List Bool)
    (arrayP : Option Nat) (i : Nat) (dn s : String) (st : LoopState)
    (hi : ¬(i = 0)) (hf : flags.getD i false = true) :
    paramStep shared (some flags) arrayP i dn (.ptr (.basic s)) st =
      match cTypeToMap shared (.ptr (.basic s)) with
      | none => .skipFn
      | some _ =>
        match cTypeToMap shared (.basic s) with
        | none => .fatalAct "runtime error: invalid memory address or nil pointer dereference"
        | some baseType =>
          .next { st with
                  preCall := st.preCall ++ "var " ++ cNameToGoLower dn ++ " C." ++ s ++ "\n",
                  retTypeSigs := st.retTypeSigs ++ [baseType.goType],
                  retVals := st.retVals ++ [baseType.goType ++ "(" ++ cNameToGoLower dn ++ ")"],
                  callArgs := st.callArgs ++ ["&" ++ cNameToGoLower dn] } := by
  simp only [paramStep, hi, false_and, if_false, hf, CType.isVoid, CType.str, if_true]

lemma c7_loopTail (shared : List (String × String)) (n1 s1 n2 s2 : String) (stA : LoopState) :
    paramLoop shared (some [false, true, true]) none 1
      [(n1, .ptr (.basic s1)), (n2, .ptr (.basic s2))] stA =
      match cTypeToMap shared (.ptr (.basic s1)) with
      | none => .skip
      | some _ =>
        match cTypeToMap shared (.basic s1) with
        | none => .fatal "runtime error: invalid memory address or nil pointer dereference"
        | some b1 =>
          match cTypeToMap shared (.ptr (.basic s2)) with
          | none => .skip
          | some _ =>
            match cTypeToMap shared (.basic s2) with
            | none => .fatal "runtime error: invalid memory address or nil pointer dereference"
            | some b2 =>
              .ok { stA with
                    preCall := stA.preCall ++ "var " ++ cNameToGoLower n1 ++ " C." ++ s1 ++ "\n"
                              ++ "var " ++ cNameToGoLower n2 ++ " C." ++ s2 ++ "\n",
                    retTypeSigs := stA.retTypeSigs ++ [b1.goType] ++ [b2.goType],
                    retVals := stA.retVals ++ [b1.goType ++ "(" ++ cNameToGoLower n1 ++ ")"]
                              ++ [b2.goType ++ "(" ++ cNameToGoLower n2 ++ ")"],
                    callArgs := stA.callArgs ++ ["&" ++ cNameToGoLower n1]
                              ++ ["&" ++ cNameToGoLower n2] } := by
  rw [paramLoop, paramStep_out shared [false, true, true] none 1 n1 s1 stA
        (by decide) (by decide)]
  cases hP1 : cTypeToMap shared (.ptr (.basic s1)) with
  | none => rfl
  | some a1 =>
    cases hb1 : cTypeToMap shared (.basic s1) with
    | none => rfl
    | some b1 =>
      dsimp only
      rw [paramLoop, paramStep_out shared [false, true, true] none 2 n2 s2 _
            (by decide) (by decide)]
      cases hP2 : cTypeToMap shared (.ptr (.basic s2)) with
      | none => rfl
      | some a2 =>
        cases hb2 : cTypeToMap shared (.basic s2) with
        | none => rfl
        | some b2 => dsimp only; rw [paramLoop]

lemma paramStep_not_skipNext (shared : List (String × String)) (outs : Option (List Bool))
    (i : Nat) (dn : String) (dt : CType) (st st1 : LoopState)
    (h : paramStep shared outs none i dn dt st = .skipNext st1) : False := by
  simp only [paramStep] at h
  repeat' split at h
  all_goals try exact ParamAct.noConfusion h
  all_goals simp_all

lemma paramStep_zero_next (shared : List (String × String)) (dn : String) (dt : CType)
    (st st1 : LoopState)
    (h : paramStep shared (some [false, true, true]) none 0 dn dt st = .next st1) :
    (st1.inArgs = st.inArgs ∨ st1.inArgs = st.inArgs ++ [cNameToGoLower dn]) ∧
    st1.retTypeSigs = st.retTypeSigs ∧ st1.retVals = st.retVals := by
  simp only [paramStep] at h
  repeat' split at h
  all_goals try exact ParamAct.noConfusion h
  all_goals try (exfalso; simp_all; done)
  all_goals (injection h with hg; subst hg)
  all_goals first
    | exact ⟨Or.inl rfl, rfl, rfl⟩
    | exact ⟨Or.inr rfl, rfl, rfl⟩

/-- C7: a function with a void natural return type and OutParamSpec
`{false, true, true}` whose two flagged trailing parameters are pointers
to a mapped scalar type synthesizes no input parameters for the flagged
positions and exactly two extra return values in parameter declaration
order, each converting the out-parameter storage written by the call. -/
theorem claim_C7 (shared : List (String × String)) (f : CDecl)
    (p0 : String × CType) (n1 n2 s1 s2 : String)
    (hft : f.type = .func .void [p0, (n1, .ptr (.basic s1)), (n2, .ptr (.basic s2))])
    (ho : lookupA f.name outParams = some [false, true, true])
    (hok : ((genFunc shared f).toOption.isSome : Prop)) :
    ((genFunc shared f).toOption.map GenFun.inArgs = some [] ∨
     (genFunc shared f).toOption.map GenFun.inArgs = some [cNameToGoLower p0.1]) ∧
    (genFunc shared f).toOption.map GenFun.retTypeSigs =
      some [goTypeOfBasic shared s1, goTypeOfBasic shared s2] ∧
    (genFunc shared f).toOption.map GenFun.retVals =
      some [goTypeOfBasic shared s1 ++ "(" ++ cNameToGoLower n1 ++ ")",
            goTypeOfBasic shared s2 ++ "(" ++ cNameToGoLower n2 ++ ")"] := by
  obtain ⟨n0, t0⟩ := p0
  obtain ⟨fn, fs, ft⟩ := f
  dsimp only at hft ho hok ⊢
  subst hft
  have harr : lookupA fn arrayParams = none := outParams_array_none fn _ ho
  have hred : genFunc shared ⟨fn, fs, .func .void
      [(n0, t0), (n1, .ptr (.basic s1)), (n2, .ptr (.basic s2))]⟩ =
      match paramLoop shared (some [false, true, true]) none 0
          [(n0, t0), (n1, .ptr (.basic s1)), (n2, .ptr (.basic s2))]
          { name := cNameToGoUpper fn, retTypeSigs := [] } with
      | .ok st => .ok (mkGenFun fn none st)
      | .skip => .skip
      | .fatal msg => .fatal msg := by
    simp only [genFunc, genFuncBody, cTypeToMap, retPair, CType.isVoid, ho, harr,
      List.length_cons, List.length_nil, if_true, if_false]
    norm_num
  rw [hred] at hok ⊢
  cases hstep : paramStep shared (some [false, true, true]) none 0 n0 t0
      { name := cNameToGoUpper fn, retTypeSigs := [] } with
  | skipFn =>
    rw [paramLoop, hstep] at hok
    simp [GenRes.toOption] at hok
  | fatalAct m =>
    rw [paramLoop, hstep] at hok
    simp [GenRes.toOption] at hok
  | skipNext stA =>
    exact (paramStep_not_skipNext shared (some [false, true, true]) 0 n0 t0 _ stA hstep).elim
  | next stA =>
    obtain ⟨hinA, hretA, hvalA⟩ := paramStep_zero_next shared n0 t0 _ stA hstep
    rw [paramLoop, hstep] at hok ⊢
    dsimp only at hok ⊢
    rw [c7_loopTail] at hok ⊢
    cases hP1 : cTypeToMap shared (.ptr (.basic s1)) with
    | none => rw [hP1] at hok; simp [GenRes.toOption] at hok
    | some a1 =>
      rw [hP1] at hok
      cases hb1 : cTypeToMap shared (.basic s1) with
      | none => rw [hb1] at hok; simp [GenRes.toOption] at hok
      | some b1 =>
        rw [hb1] at hok
        cases hP2 : cTypeToMap shared (.ptr (.basic s2)) with
        | none => rw [hP2] at hok; simp [GenRes.toOption] at hok
        | some a2 =>
          rw [hP2] at hok
          cases hb2 : cTypeToMap shared (.basic s2) with
          | none => rw [hb2] at hok; simp [GenRes.toOption] at hok
          | some b2 =>
            dsimp only at hinA hretA hvalA ⊢
            refine ⟨?_, ?_, ?_⟩
            · rcases hinA with hinA | hinA
              · left
                simp [GenRes.toOption, mkGenFun, hinA]
              · right
                simp [GenRes.toOption, mkGenFun, hinA]
            · simp [GenRes.toOption, mkGenFun, hretA, goTypeOfBasic, hb1, hb2]
            · simp [GenRes.toOption, mkGenFun, hvalA, goTypeOfBasic, hb1, hb2]

theorem claim_C7_witness :
    lookupA getCurrentPointDecl.name outParams = some [false, true, true] ∧
    (((genFunc sharedTypes getCurrentPointDecl).toOption.map GenFun.inArgs = some [] ∨
      (genFunc sharedTypes getCurrentPointDecl).toOption.map GenFun.inArgs =
        some [cNameToGoLower "cr"]) ∧
     (genFunc sharedTypes getCurrentPointDecl).toOption.map GenFun.retTypeSigs =
       some [goTypeOfBasic sharedTypes "double", goTypeOfBasic sharedTypes "double"] ∧
     (genFunc sharedTypes getCurrentPointDecl).toOption.map GenFun.retVals =
       some [goTypeOfBasic sharedTypes "double" ++ "(" ++ cNameToGoLower "x" ++ ")",
             goTypeOfBasic sharedTypes "double" ++ "(" ++ cNameToGoLower "y" ++ ")"]) :=
  ⟨rfl, claim_C7 sharedTypes getCurrentPointDecl ("cr", .ptr (.basic "cairo_t"))
      "x" "y" "double" "double" rfl rfl rfl⟩

lemma subPair_facts (D B : String) (hmem : (D, B) ∈ subTypes) :
    B ≠ "Context" ∧ B ≠ "" ∧ "*" ++ D ≠ "Format" ∧ "*" ++ D ≠ "*Matrix" := by
  simp only [subTypes, List.mem_cons, List.not_mem_nil, or_false] at hmem
  rcases hmem with h | h | h | h | h | h | h <;>
    (rw [Prod.mk.injEq] at h; obtain ⟨rfl, rfl⟩ := h) <;>
    exact ⟨by decide, by decide, by decide, by decide⟩

lemma star_ne_empty (D : String) : "*" ++ D ≠ "" := by
  intro h
  have h2 := congrArg String.data h
  rw [String.data_append] at h2
  exact absurd (List.append_eq_nil.mp h2).1 (by decide)

lemma status_ne_empty (a : String) : a ++ ".status()" ≠ "" := by
  intro h
  have h2 := congrArg String.data h
  rw [String.data_append] at h2
  exact absurd (List.append_eq_nil.mp h2).2 (by decide)

lemma goDropStr_ne_empty (s : String) (n : Nat) (h : n < s.length) :
    goDropStr s n ≠ "" := by
  intro hc
  have h2 := congrArg String.data hc
  simp only [goDropStr] at h2
  have h3 := congrArg List.length h2
  simp only [List.length_drop, List.length_nil] at h3
  have : s.data.length = s.length := rfl
  omega

lemma paramStep_method (shared : List (String × String)) (outs : Option (List Bool))
    (arrayP : Option Nat) (dn : String) (dt : CType) (st : LoopState) (m0 : typeMap)
    (D stripped : String)
    (hv : dt.isVoid = false)
    (hm0 : cTypeToMap shared dt = some m0)
    (hsm : shouldBeMethod st.name m0.method = (stripped, "*" ++ D))
    (hne : stripped ≠ "") :
    paramStep shared outs arrayP 0 dn dt st =
      match m0.goToC with
      | none => .fatalAct ("in " ++ (if stripped = "Status" then "status" else stripped) ++
          " need goToC for " ++ cNameToGoLower dn)
      | some conv =>
        .next { st with
                name := if stripped = "Status" then "status" else stripped,
                methodSig := "(" ++ cNameToGoLower dn ++ " " ++ ("*" ++ D) ++ ")",
                getErrorCall :=
                  if (if stripped = "Status" then "status" else stripped) ≠ "status" ∧
                     "*" ++ D ≠ "Format" ∧ "*" ++ D ≠ "*Matrix" then
                    cNameToGoLower dn ++ ".status()"
                  else st.getErrorCall,
                callArgs := st.callArgs ++ [(conv (cNameToGoLower dn)).1],
                preCall := st.preCall ++ (conv (cNameToGoLower dn)).2 } := by
  have hstar := star_ne_empty D
  simp only [paramStep, hv, hm0, hsm, hne, hstar, Bool.false_eq_true, and_false, if_false,
    ne_eq, not_false_eq_true, and_true, true_and, and_self, if_true]

lemma strSpaceStar (a D : String) :
    "(" ++ a ++ " " ++ ("*" ++ D) ++ ")" = "(" ++ a ++ " *" ++ D ++ ")" := by
  apply String.ext
  simp only [String.data_append, List.append_assoc]
  have h1 : (" " : String).data ++ (("*" : String).data ++ (D.data ++ (")" : String).data)) =
      (" *" : String).data ++ (D.data ++ (")" : String).data) := by
    rw [show ((" " : String).data = [' ']) from rfl,
        show (("*" : String).data = ['*']) from rfl,
        show ((" *" : String).data = [' ', '*']) from rfl]
    rfl
  rw [h1]

/-- C1 (amended): a function whose first parameter's type mapping carries
receiver tag `B`, where a configured subtype pair `(D, B)` exists and the
converted Go name *properly* extends the prefix `D` (the stripped name is
nonempty), is generated as a method on `*D` whose name is the converted
name with the `D` prefix removed; and unless the stripped name is the
status accessor, the body contains the implicit post-call check that
panics when the receiver's status denotes failure.  (The original claim
omitted properness; see the counterexample.) -/
theorem claim_C1 (shared : List (String × String)) (f : CDecl) (rb : CType)
    (p0 : String × CType) (ps : List (String × CType)) (D B : String)
    (hft : f.type = .func rb (p0 :: ps))
    (htag : (cTypeToMap shared p0.2).map typeMap.method = some B)
    (hmem : (D, B) ∈ subTypes)
    (hpfx : goHasPfx D (cNameToGoUpper f.name) = true)
    (hproper : D.length < (cNameToGoUpper f.name).length)
    (hok : ((genFunc shared f).toOption.isSome : Prop)) :
    (genFunc shared f).toOption.map GenFun.methodSig =
      some ("(" ++ cNameToGoLower p0.1 ++ " *" ++ D ++ ")") ∧
    (genFunc shared f).toOption.map GenFun.name =
      some (if goDropStr (cNameToGoUpper f.name) D.length = "Status" then "status"
            else goDropStr (cNameToGoUpper f.name) D.length) ∧
    (goDropStr (cNameToGoUpper f.name) D.length ≠ "Status" →
     goDropStr (cNameToGoUpper f.name) D.length ≠ "status" →
     (genFunc shared f).toOption.map GenFun.getErrorCall =
        some (cNameToGoLower p0.1 ++ ".status()") ∧
     (genFunc shared f).toOption.map
        (fun g => g.lines.contains
          ("if err := " ++ cNameToGoLower p0.1 ++ ".status()" ++
           "; err != nil \x7b panic(err) \x7d")) = some true) := by
  obtain ⟨n0, t0⟩ := p0
  obtain ⟨fn, fs, ft⟩ := f
  dsimp only at hft htag hpfx hproper hok ⊢
  subst hft
  obtain ⟨hBctx, hBne, hDfmt, hDmat⟩ := subPair_facts D B hmem
  cases hm0 : cTypeToMap shared t0 with
  | none => rw [hm0] at htag; simp at htag
  | some m0 =>
  rw [hm0] at htag
  simp only [Option.map_some', Option.some.injEq] at htag
  have hv : t0.isVoid = false := by
    cases t0 with
    | void =>
      exfalso
      have h2 : some ({} : typeMap) = some m0 := hm0
      injection h2 with h2
      rw [← h2] at htag
      exact hBne htag.symm
    | basic n => rfl
    | ptr b => rfl
    | structT d => rfl
    | enum d => rfl
    | func r p => rfl
  have hsm : shouldBeMethod (cNameToGoUpper fn) m0.method =
      (goDropStr (cNameToGoUpper fn) D.length, "*" ++ D) := by
    rw [htag, shouldBeMethod, if_neg hBctx, subMatch_subtype _ D B hmem hpfx]
  have hstrip : goDropStr (cNameToGoUpper fn) D.length ≠ "" :=
    goDropStr_ne_empty _ _ hproper
  cases hret : cTypeToMap shared rb with
  | none =>
    rw [show genFunc shared ⟨fn, fs, .func rb ((n0, t0) :: ps)⟩ = .skip from by
      simp only [genFunc, hret]] at hok
    simp [GenRes.toOption] at hok
  | some r0 =>
  have hbody : ∃ OUTS, genFunc shared ⟨fn, fs, .func rb ((n0, t0) :: ps)⟩ =
      genFuncBody shared fn (cNameToGoUpper fn)
        (retPair (cNameToGoUpper fn) rb r0).1 (retPair (cNameToGoUpper fn) rb r0).2
        OUTS ((n0, t0) :: ps) := by
    cases houts : lookupA fn outParams with
    | none => exact ⟨none, by simp only [genFunc, hret, houts]⟩
    | some outs =>
      by_cases hlen : outs.length ≠ ((n0, t0) :: ps).length
      · exfalso
        rw [show genFunc shared ⟨fn, fs, .func rb ((n0, t0) :: ps)⟩ = .fatal
            ("outParams mismatch for " ++ fn) from by
          simp only [genFunc, hret, houts]; rw [if_pos hlen]] at hok
        simp [GenRes.toOption] at hok
      · by_cases hrts : (retPair (cNameToGoUpper fn) rb r0).2 ≠ []
        · exfalso
          rw [show genFunc shared ⟨fn, fs, .func rb ((n0, t0) :: ps)⟩ = .fatal
              (fn ++ ": outParams and return type") from by
            simp only [genFunc, hret, houts]; rw [if_neg hlen, if_pos hrts]] at hok
          simp [GenRes.toOption] at hok
        · exact ⟨some outs, by
            simp only [genFunc, hret, houts]; rw [if_neg hlen, if_neg hrts]⟩
  obtain ⟨OUTS, hbody⟩ := hbody
  rw [hbody] at hok ⊢
  rw [genFuncBody] at hok ⊢
  rw [paramLoop, paramStep_method shared OUTS (lookupA fn arrayParams) n0 t0 _ m0 D
      (goDropStr (cNameToGoUpper fn) D.length) hv hm0 hsm hstrip] at hok ⊢
  cases hc : m0.goToC with
  | none =>
    try rw [hc] at hok
    dsimp only at hok
    simp [GenRes.toOption] at hok
  | some conv =>
    try rw [hc] at hok
    try rw [hc]
    dsimp only at hok ⊢
    split at hok
    case _ stF hloop =>
      obtain ⟨hn, hms, hgec⟩ := paramLoop_pres shared OUTS (lookupA fn arrayParams)
        (0 + 1) ps _ stF hloop (by omega)
      dsimp only at hn hms hgec
      refine ⟨?_, ?_, ?_⟩
      · simp only [GenRes.toOption, Option.map_some', Option.some.injEq]
        show stF.methodSig = _
        rw [hms]
        exact strSpaceStar (cNameToGoLower n0) D
      · simp only [GenRes.toOption, Option.map_some', Option.some.injEq]
        show stF.name = _
        exact hn
      · intro hS hs
        have hcond : ((if goDropStr (cNameToGoUpper fn) D.length = "Status" then "status"
            else goDropStr (cNameToGoUpper fn) D.length) ≠ "status" ∧
            "*" ++ D ≠ "Format" ∧ "*" ++ D ≠ "*Matrix") := by
          refine ⟨?_, hDfmt, hDmat⟩
          rw [if_neg hS]
          exact hs
        have hgecv : stF.getErrorCall = cNameToGoLower n0 ++ ".status()" := by
          rw [hgec, if_pos hcond]
        have hgne : ¬(stF.getErrorCall = "") := by
          rw [hgecv]; exact status_ne_empty _
        have hgecm : (mkGenFun fn (retPair (cNameToGoUpper fn) rb r0).1 stF).getErrorCall =
            stF.getErrorCall := by
          rw [show (mkGenFun fn (retPair (cNameToGoUpper fn) rb r0).1 stF).getErrorCall =
              (match (retPair (cNameToGoUpper fn) rb r0).1 with
               | some rt => if stF.getErrorCall = "" ∧ rt.method ≠ "" then "ret.status()"
                            else stF.getErrorCall
               | none => stF.getErrorCall) from rfl]
          cases (retPair (cNameToGoUpper fn) rb r0).1 with
          | none => rfl
          | some rt =>
            dsimp only
            rw [if_neg (by intro hand; exact hgne hand.1)]
        constructor
        · simp only [GenRes.toOption, Option.map_some', Option.some.injEq]
          rw [hgecm, hgecv]
        · simp only [GenRes.toOption, Option.map_some', Option.some.injEq]
          rw [show (mkGenFun fn (retPair (cNameToGoUpper fn) rb r0).1 stF).lines =
              ["// See " ++ fn ++ "().",
               "func " ++ stF.methodSig ++ " " ++ stF.name ++ "(" ++
                 buildArgSig stF.inArgs stF.inArgTypes ++ ") " ++
                 (if stF.retTypeSigs.length > 1 then
                    "(" ++ goJoin ", " stF.retTypeSigs ++ ")"
                  else goJoin ", " stF.retTypeSigs) ++ " \x7b"]
              ++ (if stF.preCall ≠ "" then [stF.preCall] else [])
              ++ [match (retPair (cNameToGoUpper fn) rb r0).1 with
                  | some rt => "ret := " ++ applyConv rt.cToGo
                      ("C." ++ fn ++ "(" ++ goJoin ", " stF.callArgs ++ ")")
                  | none => "C." ++ fn ++ "(" ++ goJoin ", " stF.callArgs ++ ")"]
              ++ (if (mkGenFun fn (retPair (cNameToGoUpper fn) rb r0).1 stF).getErrorCall ≠ ""
                  then ["if err := " ++
                        (mkGenFun fn (retPair (cNameToGoUpper fn) rb r0).1 stF).getErrorCall ++
                        "; err != nil \x7b panic(err) \x7d"]
                  else [])
              ++ (if stF.retTypeSigs ≠ [] then
                    [if stF.retVals ≠ [] then "return " ++ goJoin ", " stF.retVals
                     else "return ret"]
                  else [])
              ++ ["\x7d"] from rfl]
          rw [hgecm, hgecv]
          rw [if_pos (status_ne_empty (cNameToGoLower n0))]
          rw [show ("if err := " ++ cNameToGoLower n0 ++ ".status()" ++
              "; err != nil \x7b panic(err) \x7d") =
              ("if err := " ++ (cNameToGoLower n0 ++ ".status()") ++
              "; err != nil \x7b panic(err) \x7d") from by
            rw [strAssoc "if err := " (cNameToGoLower n0) ".status()"]]
          simp [List.elem_iff]
    case _ hloop =>
      simp [GenRes.toOption] at hok
    case _ msg hloop =>
      simp [GenRes.toOption] at hok

theorem claim_C1_witness :
    ("ImageSurface", "Surface") ∈ subTypes ∧
    goHasPfx "ImageSurface" (cNameToGoUpper imageSurfaceGetFormatDecl.name) = true ∧
    ("ImageSurface" : String).length < (cNameToGoUpper imageSurfaceGetFormatDecl.name).length ∧
    (genFunc sharedTypes imageSurfaceGetFormatDecl).toOption.map GenFun.methodSig =
      some "(surface *ImageSurface)" ∧
    (genFunc sharedTypes imageSurfaceGetFormatDecl).toOption.map GenFun.name =
      some "GetFormat" ∧
    (genFunc sharedTypes imageSurfaceGetFormatDecl).toOption.map GenFun.getErrorCall =
      some "surface.status()" ∧
    (genFunc sharedTypes imageSurfaceGetFormatDecl).toOption.map
      (fun g => g.lines.contains
        "if err := surface.status(); err != nil \x7b panic(err) \x7d") = some true := by
  have h := claim_C1 sharedTypes imageSurfaceGetFormatDecl (.basic "cairo_format_t")
    ("surface", .ptr (.basic "cairo_surface_t")) [] "ImageSurface" "Surface"
    rfl rfl (by decide) (by decide) (by decide) rfl
  obtain ⟨h1, h2, h3⟩ := h
  obtain ⟨h4, h5⟩ := h3 (by decide) (by decide)
  refine ⟨by decide, by decide, by decide, ?_, ?_, ?_, ?_⟩
  · rw [h1]; rfl
  · rw [h2]; rfl
  · rw [h4]; rfl
  · exact h5

/-- C1 counterexample: a function whose converted Go name is exactly the
derived name `ImageSurface` satisfies every hypothesis of the original
claim (receiver tag `Surface`, configured pair, prefix), yet is emitted
as a free function: empty method signature, unstripped name, and no
receiver status check. -/
theorem claim_C1_cex :
    imageSurfaceBareDecl.type =
      CType.func .void [("surface", .ptr (.basic "cairo_surface_t"))] ∧
    (cTypeToMap sharedTypes (.ptr (.basic "cairo_surface_t"))).map typeMap.method =
      some "Surface" ∧
    ("ImageSurface", "Surface") ∈ subTypes ∧
    goHasPfx "ImageSurface" (cNameToGoUpper imageSurfaceBareDecl.name) = true ∧
    cNameToGoUpper imageSurfaceBareDecl.name = "ImageSurface" ∧
    (genFunc sharedTypes imageSurfaceBareDecl).toOption.map GenFun.methodSig = some "" ∧
    (genFunc sharedTypes imageSurfaceBareDecl).toOption.map GenFun.name =
      some "ImageSurface" ∧
    (genFunc sharedTypes imageSurfaceBareDecl).toOption.map GenFun.getErrorCall = some "" :=
  ⟨rfl, rfl, by decide, by decide, by decide, rfl, rfl, rfl⟩

end Gocairo
